import Mathlib

set_option autoImplicit false

/-!
Shallow embedding of the tesla-fleet-telemetry ingestion pipeline.

Source-backed definitions come from the repository files:
  * the `VehicleConnectivity` protobuf message and `ConnectivityEvent` enum;
  * the OpenTelemetry metrics adapter (`Counter`, `Timer`, `Collector`,
    `labelsToAttributes`);
  * the OpenTelemetry `Gauge` (`labelsKey`, `Add`, `Sub`, `Inc`, `Set`).

Components whose Go sources are not in the visible tree (the NATS producer's
publish path, the router, the registry, the ack coordinator, connectivity
synthesis) are modelled from the specification; each such definition carries a
doc comment starting with `Modelled from the spec:`.

Go `map[string]T` values are embedded as association lists in iteration order;
Go map assignment replaces the entry in place when the key is present and
appends a fresh entry otherwise, and a read of a missing key yields the zero
value.
-/

namespace FleetTelemetry

/-! ### Generic association-list maps (embedding of Go maps) -/

/-- Go map assignment `m[k] = v`: replace the first entry with key `k` in
place, else append a new entry. -/
def mapInsert {κ α : Type} [DecidableEq κ] (m : List (κ × α)) (k : κ) (v : α) :
    List (κ × α) :=
  match m with
  | [] => [(k, v)]
  | e :: es => if e.1 = k then (k, v) :: es else e :: mapInsert es k v

/-- Go map read `m[k]` with zero-value default `d` for a missing key. -/
def mapGetD {κ α : Type} [DecidableEq κ] (m : List (κ × α)) (k : κ) (d : α) : α :=
  match m with
  | [] => d
  | e :: es => if e.1 = k then e.2 else mapGetD es k d

/-- Go map membership test `_, ok := m[k]`. -/
def mapContains {κ α : Type} [DecidableEq κ] (m : List (κ × α)) (k : κ) : Bool :=
  match m with
  | [] => false
  | e :: es => e.1 = k || mapContains es k

/-! ### Protobuf data model (`VehicleConnectivity` message) -/

/-- The `ConnectivityEvent` proto enum. -/
inductive ConnectivityEvent where
  | UNKNOWN
  | CONNECTED
  | DISCONNECTED
  deriving DecidableEq, Repr

/-- The wire numbers the proto assigns to `ConnectivityEvent` values. -/
def ConnectivityEvent.toNumber : ConnectivityEvent → Nat
  | .UNKNOWN => 0
  | .CONNECTED => 1
  | .DISCONNECTED => 2

/-- `google.protobuf.Timestamp`. -/
structure Timestamp where
  seconds : Int
  nanos : Int
  deriving DecidableEq, Repr

/-- The `VehicleConnectivity` proto message. -/
structure VehicleConnectivity where
  vin : String
  connection_id : String
  status : ConnectivityEvent
  created_at : Timestamp
  network_interface : String
  deriving DecidableEq, Repr

/-- The field descriptors (number, name) of the `VehicleConnectivity`
message, in declaration order. -/
def vehicleConnectivityFields : List (Nat × String) :=
  [(1, "vin"), (2, "connection_id"), (3, "status"),
   (4, "created_at"), (5, "network_interface")]

/-! ### OpenTelemetry metrics adapter -/

/-- `adapter.Labels` is `map[string]string`; embedded as its iteration
sequence. -/
abbrev Labels : Type := List (String × String)

/-- `attribute.KeyValue`. -/
structure KeyValue where
  key : String
  value : String
  deriving DecidableEq, Repr

/-- `labelsToAttributes`: one `attribute.String(key, value)` per label, in
iteration order. -/
def labelsToAttributes (labels : Labels) : List KeyValue :=
  labels.foldl (fun attrs kv => attrs ++ [⟨kv.1, kv.2⟩]) []

/-- One measurement recorded on an underlying SDK instrument (identified by a
handle) with its attribute set. -/
structure Measurement where
  instrument : Nat
  value : Int
  attrs : List KeyValue
  deriving DecidableEq, Repr

/-- The stream of measurements handed to the OpenTelemetry SDK. -/
abbrev OtelWorld : Type := List Measurement

/-- The otel `Counter`: its `counter` field is a `metric.Int64Counter`
interface value, `none` embedding Go `nil`. -/
structure Counter where
  counter : Option Nat
  deriving DecidableEq, Repr

/-- `Counter.Add`: returns immediately when the underlying instrument is nil,
otherwise records `n` with the converted attributes. -/
def Counter.Add (c : Counter) (n : Int) (labels : Labels) (w : OtelWorld) :
    OtelWorld :=
  match c.counter with
  | none => w
  | some i => w ++ [⟨i, n, labelsToAttributes labels⟩]

/-- `Counter.Inc`: returns immediately when the underlying instrument is nil,
otherwise records `1`. -/
def Counter.Inc (c : Counter) (labels : Labels) (w : OtelWorld) : OtelWorld :=
  match c.counter with
  | none => w
  | some i => w ++ [⟨i, 1, labelsToAttributes labels⟩]

/-- The otel `Timer`: its `histogram` field is a `metric.Int64Histogram`
interface value, `none` embedding Go `nil`. -/
structure Timer where
  histogram : Option Nat
  deriving DecidableEq, Repr

/-- `Timer.Observe`: returns immediately when the underlying histogram is nil,
otherwise records `n`. -/
def Timer.Observe (t : Timer) (n : Int) (labels : Labels) (w : OtelWorld) :
    OtelWorld :=
  match t.histogram with
  | none => w
  | some i => w ++ [⟨i, n, labelsToAttributes labels⟩]

/-- `adapter.CollectorOptions`. -/
structure CollectorOptions where
  name : String
  help : String

/-- The meter: instrument construction may fail, which the adapter handles by
falling back to a nil instrument. -/
structure Meter where
  int64Counter : String → Except String Nat
  int64Histogram : String → Except String Nat

/-- The otel `Collector`. -/
structure Collector where
  meter : Meter

/-- `Collector.RegisterCounter`: on registration failure, logs and returns a
`Counter` whose instrument is nil. -/
def Collector.RegisterCounter (c : Collector) (options : CollectorOptions) :
    Counter :=
  match c.meter.int64Counter options.name with
  | .error _ => { counter := none }
  | .ok ctr => { counter := some ctr }

/-- `Collector.RegisterTimer`: on registration failure, logs and returns a
`Timer` whose histogram is nil. -/
def Collector.RegisterTimer (c : Collector) (options : CollectorOptions) :
    Timer :=
  match c.meter.int64Histogram options.name with
  | .error _ => { histogram := none }
  | .ok h => { histogram := some h }

/-- A collector whose meter rejects every instrument registration; used to
exercise the failure path at a concrete input. -/
def errCollector : Collector :=
  ⟨⟨fun _ => .error "boom", fun _ => .error "boom"⟩⟩

/-! ### OpenTelemetry Gauge -/

/-- The otel `Gauge` state: `values` is `map[string]int64` (keyed by the
serialized label set) and `labels` is `map[string][]attribute.KeyValue`. -/
structure Gauge where
  values : List (String × Int)
  labels : List (String × List KeyValue)
  deriving DecidableEq, Repr

/-- `labelsKey`: serializes a label set by concatenating `k + "=" + v + ";"`
over the map's iteration order. -/
def labelsKey (labels : Labels) : String :=
  labels.foldl (fun key kv => key ++ kv.1 ++ "=" ++ kv.2 ++ ";") ""

/-- `Gauge.Add`: `values[key] += n`; stores the attribute set for the key only
if absent. -/
def Gauge.Add (g : Gauge) (n : Int) (labels : Labels) : Gauge :=
  let key := labelsKey labels
  { values := mapInsert g.values key (mapGetD g.values key 0 + n)
    labels := if mapContains g.labels key then g.labels
              else mapInsert g.labels key (labelsToAttributes labels) }

/-- `Gauge.Sub`: `values[key] -= n`; stores the attribute set for the key only
if absent. -/
def Gauge.Sub (g : Gauge) (n : Int) (labels : Labels) : Gauge :=
  let key := labelsKey labels
  { values := mapInsert g.values key (mapGetD g.values key 0 - n)
    labels := if mapContains g.labels key then g.labels
              else mapInsert g.labels key (labelsToAttributes labels) }

/-- `Gauge.Inc`: defined as `Add(1, labels)`. -/
def Gauge.Inc (g : Gauge) (labels : Labels) : Gauge :=
  g.Add 1 labels

/-- `Gauge.Set`: `values[key] = n`; always overwrites the stored attribute
set. -/
def Gauge.Set (g : Gauge) (n : Int) (labels : Labels) : Gauge :=
  let key := labelsKey labels
  { values := mapInsert g.values key n
    labels := mapInsert g.labels key (labelsToAttributes labels) }

/-! ### Record model of the pipeline -/

/-- Origin of a record: read from a vehicle connection, or manufactured by
the pipeline (connectivity synthesis). -/
inductive Origin where
  | vehicle
  | synthetic
  deriving DecidableEq, Repr

/-- A record's payload: opaque wire bytes for vehicle-sourced records, a
`VehicleConnectivity` message for synthetic connectivity records. -/
inductive RecordPayload where
  | raw (bytes : List Nat)
  | connectivity (c : VehicleConnectivity)
  deriving DecidableEq, Repr

/-- The in-memory unit of work travelling through the pipeline. -/
structure Record where
  txid : Nat
  txType : String
  vin : String
  payload : RecordPayload
  origin : Origin
  deriving DecidableEq, Repr

/-- The connectivity status carried by a record, when its payload is a
`VehicleConnectivity` message. -/
def Record.connectivityStatus (r : Record) : Option ConnectivityEvent :=
  match r.payload with
  | .connectivity c => some c.status
  | .raw _ => none

/-! ### NATS subject formation -/

/-- Modelled from the spec: the subject formation of the NATS producer's
publish path (the producer's Go source is not in the visible tree; its tests
and README state the rule). The subject is `{namespace}.{vin}.{topic}` where
the topic is `data` when the record type is `V` and the type verbatim
otherwise. -/
def natsSubject (ns vin txType : String) : String :=
  let topic := if txType = "V" then "data" else txType
  ns ++ "." ++ vin ++ "." ++ topic

/-! ### Reliable-ack forwarding by a producer -/

/-- The `(identity, txid, type_tag)` tuple a producer forwards to the ack
coordinator. -/
structure AckTuple where
  identity : String
  txid : Nat
  txType : String
  deriving DecidableEq, Repr

/-- Modelled from the spec: `process_reliable_ack` (the producer's Go source
is not in the visible tree). When the backend confirms durable acceptance of
a record, the producer forwards the record's `(identity, txid, type_tag)`
tuple to the ack coordinator channel, but only when the record's type tag is
among the type tags the producer is registered as an ack source for. -/
def processReliableAck (reliableAckTxTypes : List String) (r : Record)
    (ackChan : List AckTuple) : List AckTuple :=
  if r.txType ∈ reliableAckTxTypes then
    ackChan ++ [⟨r.vin, r.txid, r.txType⟩]
  else
    ackChan

/-! ### Router dispatch -/

/-- A producer as the router sees it: a backend name and the outcome of its
publish on each record (`some err` embeds a returned error). -/
structure ProducerSim where
  name : String
  publishResult : Record → Option String

/-- Observable router state: whether the originating connection is open, all
publish calls made, the successful deliveries, the per
`(backend, record_type)` error counters, and the ack-coordinator channel. -/
structure RouterState where
  connOpen : Bool
  attempts : List (String × Record)
  delivered : List (String × Record)
  errCount : List ((String × String) × Nat)
  acks : List AckTuple

/-- Modelled from the spec: one producer-publish step of the router's
synchronous dispatch. An error is logged, the `<backend>_err{record_type}`
counter is incremented, and dispatch continues; a success is a delivery. In
either case no retry happens, the connection is untouched, and no reliable
ack is triggered. -/
def publishTo (st : RouterState) (p : ProducerSim) (r : Record) : RouterState :=
  match p.publishResult r with
  | some _err =>
    { st with attempts := st.attempts ++ [(p.name, r)]
              errCount := mapInsert st.errCount (p.name, r.txType)
                (mapGetD st.errCount (p.name, r.txType) 0 + 1) }
  | none =>
    { st with attempts := st.attempts ++ [(p.name, r)]
              delivered := st.delivered ++ [(p.name, r)] }

/-- Modelled from the spec: router dispatch of one record, iterating the
configured producer list for the record's type tag in order. -/
def dispatch (producers : List ProducerSim) (r : Record) (st : RouterState) :
    RouterState :=
  producers.foldl (fun acc p => publishTo acc p r) st

/-! ### Connectivity synthesis -/

/-- A connection lifecycle transition. -/
inductive ConnLifecycle where
  | opened
  | closed
  deriving DecidableEq, Repr

/-- A connection open/close event seen by the pipeline. -/
structure ConnEvent where
  kind : ConnLifecycle
  identity : String
  connectionId : String
  networkInterface : String
  createdAt : Timestamp
  deriving DecidableEq, Repr

/-- Modelled from the spec: on every connection open and close the pipeline
manufactures a synthetic `VehicleConnectivity` record — status `CONNECTED`
on open and `DISCONNECTED` on close, `vin` the connection's identity,
`network_interface` the transport used — with the explicit `synthetic`
origin rather than a sentinel txid. -/
def mkConnectivityRecord (ev : ConnEvent) : Record :=
  { txid := 0
    txType := "connectivity"
    vin := ev.identity
    payload := .connectivity
      { vin := ev.identity
        connection_id := ev.connectionId
        status := match ev.kind with
          | .opened => .CONNECTED
          | .closed => .DISCONNECTED
        created_at := ev.createdAt
        network_interface := ev.networkInterface }
    origin := .synthetic }

/-- Modelled from the spec: a synthetic connectivity record is fed through
the same router dispatch as vehicle-sourced records, using the producer list
configured for the `connectivity` tag. -/
def handleConnEvent (config : String → List ProducerSim) (ev : ConnEvent)
    (st : RouterState) : RouterState :=
  dispatch (config "connectivity") (mkConnectivityRecord ev) st

/-- Modelled from the spec: the read loop enqueues a per-connection in-flight
correlation entry `(txid, type_tag)` only for ack-eligible records — records
read from the vehicle whose type tag has a designated ack source. Synthetic
records never demand an ack. -/
def inFlightAdds (designated : String → Bool) (r : Record) :
    List (Nat × String) :=
  if r.origin = .vehicle ∧ designated r.txType then
    [(r.txid, r.txType)]
  else
    []

/-! ### Connection registry -/

/-- A live connection as the registry sees it: its identity and a handle
distinguishing distinct connections of the same identity. -/
structure ConnHandle where
  deviceId : String
  connNum : Nat
  deriving DecidableEq, Repr

/-- Modelled from the spec: the process-wide live-connection table, keyed by
identity (a Go map under a lock, embedded as an association list in
iteration order). -/
abbrev Registry : Type := List ConnHandle

/-- `lookup(device_id)`: the live connection for an identity, if any. -/
def Registry.lookup (reg : Registry) (d : String) : Option ConnHandle :=
  reg.find? (fun e => e.deviceId == d)

/-- Modelled from the spec: atomic `register(conn) → displaced?`. Insertion
for an occupied slot replaces the entry and returns the prior connection so
the listener can mark it draining; insertion for a free slot stores the
connection and displaces nothing. -/
def Registry.register (reg : Registry) (c : ConnHandle) :
    Registry × Option ConnHandle :=
  match reg.find? (fun e => e.deviceId == c.deviceId) with
  | some old => (reg.map (fun e => if e.deviceId == c.deviceId then c else e),
                 some old)
  | none => (reg ++ [c], none)

/-- `unregister(conn)`: removes exactly that connection from the table. -/
def Registry.unregister (reg : Registry) (c : ConnHandle) : Registry :=
  reg.filter (fun e => !(e == c))

/-- The registry's keying invariant: identities index at most one entry. -/
def Registry.WellKeyed (reg : Registry) : Prop :=
  (reg.map (fun e => e.deviceId)).Nodup

/-! ### Ack coordinator -/

/-- The ack frame written back to the vehicle. -/
structure AckFrame where
  txid : Nat
  txType : String
  deriving DecidableEq, Repr

/-- A per-connection in-flight correlation entry with its remaining TTL
ticks. -/
structure InFlightEntry where
  txid : Nat
  txType : String
  remaining : Nat
  deriving DecidableEq, Repr

/-- An event seen by the ack coordinator: an `(identity, txid, type_tag)`
tuple arriving from a producer (tagged with whether that producer is the
type's designated ack source), or the passage of one TTL tick. -/
inductive AckCoordEvent where
  | ackArrive (identity : String) (txid : Nat) (txType : String)
      (fromDesignated : Bool)
  | tick
  deriving DecidableEq, Repr

/-- Ack-coordinator state projected onto one tracked record: its in-flight
entry (if unresolved), the originating connection's outbound ack queue, and
the expiry and orphan counters. -/
structure AckCoordState where
  entry : Option InFlightEntry
  outboundAckQueue : List AckFrame
  expiredCount : Nat
  orphanCount : Nat
  deriving DecidableEq, Repr

/-- Modelled from the spec: one ack-coordinator step. An arriving tuple that
matches a live in-flight entry and comes from the designated ack source
enqueues an ack frame and resolves the entry; a matching tuple from a
non-designated backend does nothing; a tuple for an unknown or expired txid
increments the ack-orphan counter. A tick decrements the remaining TTL, and
expiry resolves the entry and increments the expiry counter, silently to the
vehicle. -/
def ackCoordStep (st : AckCoordState) (ev : AckCoordEvent) : AckCoordState :=
  match ev with
  | .ackArrive _id txid txType fromDesignated =>
    match st.entry with
    | some e =>
      if e.txid = txid ∧ e.txType = txType then
        if fromDesignated then
          { st with entry := none
                    outboundAckQueue := st.outboundAckQueue ++ [⟨txid, txType⟩] }
        else
          st
      else
        { st with orphanCount := st.orphanCount + 1 }
    | none => { st with orphanCount := st.orphanCount + 1 }
  | .tick =>
    match st.entry with
    | some e =>
      if e.remaining ≤ 1 then
        { st with entry := none, expiredCount := st.expiredCount + 1 }
      else
        { st with entry := some { e with remaining := e.remaining - 1 } }
    | none => st

/-- The ack coordinator run over a sequence of events. -/
def ackCoordRun (st : AckCoordState) (evs : List AckCoordEvent) :
    AckCoordState :=
  evs.foldl ackCoordStep st

/-- The coordinator state right after a record with a designated ack source
is dispatched: a fresh in-flight entry with the configured TTL. -/
def initAckState (txid : Nat) (txType : String) (ttl : Nat) : AckCoordState :=
  { entry := some ⟨txid, txType, ttl⟩
    outboundAckQueue := []
    expiredCount := 0
    orphanCount := 0 }

/-- The number of TTL ticks in an event sequence. -/
def countTicks (evs : List AckCoordEvent) : Nat :=
  (evs.filter (fun e => match e with | .tick => true | _ => false)).length

/-- The number of producers in a dispatch list whose publish errors on `r`
and whose `(backend, record_type)` counter key is `k`. -/
def failCount (producers : List ProducerSim) (r : Record)
    (k : String × String) : Nat :=
  producers.countP (fun p => (p.publishResult r).isSome
    && ((p.name, r.txType) == k))

/-- The reachable-state invariant of the coordinator for one tracked record:
either the entry is live (TTL positive and at most the configured TTL) with
nothing acked and nothing expired, or exactly the matching ack frame was
enqueued, or exactly one expiry was counted. -/
def ackInv (txid : Nat) (txType : String) (ttl : Nat)
    (st : AckCoordState) : Prop :=
  (∃ e, st.entry = some e ∧ e.txid = txid ∧ e.txType = txType ∧
     1 ≤ e.remaining ∧ e.remaining ≤ ttl ∧
     st.outboundAckQueue = [] ∧ st.expiredCount = 0) ∨
  (st.entry = none ∧ st.outboundAckQueue = [⟨txid, txType⟩] ∧
     st.expiredCount = 0) ∨
  (st.entry = none ∧ st.outboundAckQueue = [] ∧ st.expiredCount = 1)

/-!
## Theorems

Helper lemmas first, then one theorem per claim.
-/

/-- Reading back the key just written returns the written value. -/
theorem mapGetD_mapInsert_self {κ α : Type} [DecidableEq κ]
    (m : List (κ × α)) (k : κ) (v d : α) :
    mapGetD (mapInsert m k v) k d = v := by
  induction m with
  | nil => simp [mapInsert, mapGetD]
  | cons e es ih =>
    by_cases h : e.1 = k
    · simp [mapInsert, mapGetD, h]
    · simp [mapInsert, mapGetD, h, ih]

/-- A write at one key leaves reads of any other key unchanged. -/
theorem mapGetD_mapInsert_ne {κ α : Type} [DecidableEq κ]
    (m : List (κ × α)) (k k2 : κ) (v d : α) (h : k2 ≠ k) :
    mapGetD (mapInsert m k v) k2 d = mapGetD m k2 d := by
  induction m with
  | nil => simp [mapInsert, mapGetD, Ne.symm h]
  | cons e es ih =>
    by_cases he : e.1 = k
    · subst he
      simp [mapInsert, mapGetD, Ne.symm h]
    · simp [mapInsert, mapGetD, he, ih]

/-- Reading any key after a write: the written value at the written key,
the old value elsewhere. -/
theorem mapGetD_mapInsert {κ α : Type} [DecidableEq κ]
    (m : List (κ × α)) (k k2 : κ) (v d : α) :
    mapGetD (mapInsert m k v) k2 d = if k2 = k then v else mapGetD m k2 d := by
  by_cases h : k2 = k
  · subst h
    simp [mapGetD_mapInsert_self]
  · simp [h, mapGetD_mapInsert_ne m k k2 v d h]

/-- Two writes to the same key collapse to the last one. -/
theorem mapInsert_mapInsert {κ α : Type} [DecidableEq κ]
    (m : List (κ × α)) (k : κ) (a b : α) :
    mapInsert (mapInsert m k a) k b = mapInsert m k b := by
  induction m with
  | nil => simp [mapInsert]
  | cons e es ih =>
    by_cases h : e.1 = k
    · simp [mapInsert, h]
    · simp [mapInsert, h, ih]

/-- C1: a subject-based producer publishes every record to
`<namespace>.<device_id>.<topic_name>`, with `topic_name = "data"` when the
record's type tag is `V` and the tag verbatim otherwise; in particular the
spec's `tesla_telemetry` / `5YJ3E1EA1NF123456` examples hold for `V` and
`alerts` records. -/
theorem natsSubject_formation (ns vin tag : String) :
    natsSubject ns vin tag
      = ns ++ "." ++ vin ++ "." ++ (if tag = "V" then "data" else tag) ∧
    natsSubject "tesla_telemetry" "5YJ3E1EA1NF123456" "V"
      = "tesla_telemetry.5YJ3E1EA1NF123456.data" ∧
    natsSubject "tesla_telemetry" "5YJ3E1EA1NF123456" "alerts"
      = "tesla_telemetry.5YJ3E1EA1NF123456.alerts" := by
  refine ⟨rfl, ?_, ?_⟩ <;> decide

/-- C2: `process_reliable_ack` appends the record's
`(identity, txid, type_tag)` tuple to the ack channel exactly when the
record's type tag is among the producer's registered ack-source tags, and
leaves the channel untouched otherwise; appending is observable, so the two
branches genuinely differ. -/
theorem processReliableAck_filters_by_registered_types
    (tys : List String) (r : Record) (chan : List AckTuple) :
    processReliableAck tys r chan
      = (if r.txType ∈ tys
          then chan ++ [⟨r.vin, r.txid, r.txType⟩]
          else chan) ∧
    chan ++ [⟨r.vin, r.txid, r.txType⟩] ≠ chan ∧
    processReliableAck [] r chan = chan := by
  refine ⟨rfl, ?_, ?_⟩
  · intro h
    have hlen := congrArg List.length h
    simp at hlen
  · simp [processReliableAck]

/-- C4: the `VehicleConnectivity` message carries exactly the fields
`vin`, `connection_id`, `status`, `created_at`, `network_interface` (wire
numbers 1–5, and two messages agreeing on these five fields are equal), and
`ConnectivityEvent` assigns `UNKNOWN = 0`, `CONNECTED = 1`,
`DISCONNECTED = 2` and nothing else. -/
theorem vehicleConnectivity_schema :
    vehicleConnectivityFields.map (fun f => f.2)
      = ["vin", "connection_id", "status", "created_at",
         "network_interface"] ∧
    vehicleConnectivityFields.map (fun f => f.1) = [1, 2, 3, 4, 5] ∧
    ConnectivityEvent.UNKNOWN.toNumber = 0 ∧
    ConnectivityEvent.CONNECTED.toNumber = 1 ∧
    ConnectivityEvent.DISCONNECTED.toNumber = 2 ∧
    (∀ e : ConnectivityEvent,
      e = .UNKNOWN ∨ e = .CONNECTED ∨ e = .DISCONNECTED) ∧
    (∀ a b : VehicleConnectivity,
      a.vin = b.vin → a.connection_id = b.connection_id →
      a.status = b.status → a.created_at = b.created_at →
      a.network_interface = b.network_interface → a = b) := by
  refine ⟨rfl, rfl, rfl, rfl, rfl, ?_, ?_⟩
  · intro e
    cases e <;> simp
  · intro a b h1 h2 h3 h4 h5
    cases a
    cases b
    simp_all

/-- Witness for C4 at a concrete pair of messages. -/
theorem vehicleConnectivity_schema_witness :
    (⟨"5YJ3E1EA1NF123456", "c1", .CONNECTED, ⟨0, 0⟩, "wifi"⟩ :
        VehicleConnectivity)
      = ⟨"5YJ3E1EA1NF123456", "c1", .CONNECTED, ⟨0, 0⟩, "wifi"⟩ :=
  vehicleConnectivity_schema.2.2.2.2.2.2
    ⟨"5YJ3E1EA1NF123456", "c1", .CONNECTED, ⟨0, 0⟩, "wifi"⟩
    ⟨"5YJ3E1EA1NF123456", "c1", .CONNECTED, ⟨0, 0⟩, "wifi"⟩
    rfl rfl rfl rfl rfl

/-- C8: every metric-recording call on a nil-backed instrument is a total
no-op — `Counter.Add`, `Counter.Inc` and `Timer.Observe` return the world
unchanged when the underlying instrument is nil — and `RegisterCounter` /
`RegisterTimer` return exactly such nil-backed structures (never absent
values) whenever instrument registration fails. -/
theorem nil_backed_instruments_noop (n : Int) (L : Labels) (w : OtelWorld)
    (c : Collector) (o : CollectorOptions) (e : String) :
    Counter.Add ⟨none⟩ n L w = w ∧
    Counter.Inc ⟨none⟩ L w = w ∧
    Timer.Observe ⟨none⟩ n L w = w ∧
    (c.meter.int64Counter o.name = .error e →
      c.RegisterCounter o = ⟨none⟩ ∧
      ∀ w2, Counter.Add (c.RegisterCounter o) n L w2 = w2 ∧
            Counter.Inc (c.RegisterCounter o) L w2 = w2) ∧
    (c.meter.int64Histogram o.name = .error e →
      c.RegisterTimer o = ⟨none⟩ ∧
      ∀ w2, Timer.Observe (c.RegisterTimer o) n L w2 = w2) := by
  refine ⟨rfl, rfl, rfl, ?_, ?_⟩
  · intro h
    have hc : c.RegisterCounter o = ⟨none⟩ := by
      simp [Collector.RegisterCounter, h]
    exact ⟨hc, fun w2 => by rw [hc]; exact ⟨rfl, rfl⟩⟩
  · intro h
    have ht : c.RegisterTimer o = ⟨none⟩ := by
      simp [Collector.RegisterTimer, h]
    exact ⟨ht, fun w2 => by rw [ht]; rfl⟩

/-- Witness for C8 at a collector whose registrations all fail. -/
theorem nil_backed_instruments_noop_witness :
    errCollector.meter.int64Counter "m" = .error "boom" ∧
    errCollector.RegisterCounter ⟨"m", "h"⟩ = ⟨none⟩ ∧
    Counter.Add (errCollector.RegisterCounter ⟨"m", "h"⟩) 2 [] [] = [] ∧
    errCollector.RegisterTimer ⟨"m", "h"⟩ = ⟨none⟩ ∧
    Timer.Observe (errCollector.RegisterTimer ⟨"m", "h"⟩) 2 [] [] = [] := by
  have h := nil_backed_instruments_noop 2 [] [] errCollector ⟨"m", "h"⟩ "boom"
  have h4 := h.2.2.2.1 rfl
  have h5 := h.2.2.2.2 rfl
  exact ⟨rfl, h4.1, (h4.2 []).1, h5.1, h5.2 []⟩

/-- C9: `labelsKey` is not injective — the distinct label maps
`{"a": "b;c=d"}` and `{"a": "b", "c": "d"}` serialize to the same key — so
`Gauge.Add`, `Gauge.Sub` and `Gauge.Set` merge the stored values of the two
label sets into a single entry. -/
theorem labelsKey_collision_merges_gauge_entries :
    labelsKey [("a", "b;c=d")] = labelsKey [("a", "b"), ("c", "d")] ∧
    ([("a", "b;c=d")] : Labels) ≠ [("a", "b"), ("c", "d")] ∧
    (([("a", "b;c=d")] : Labels).find? (fun kv => kv.1 == "c") = none ∧
      ([("a", "b"), ("c", "d")] : Labels).find? (fun kv => kv.1 == "c")
        = some ("c", "d")) ∧
    (((Gauge.mk [] []).Add 5 [("a", "b;c=d")]).Add 3
        [("a", "b"), ("c", "d")]).values = [("a=b;c=d;", 8)] ∧
    (((Gauge.mk [] []).Add 5 [("a", "b;c=d")]).Sub 3
        [("a", "b"), ("c", "d")]).values = [("a=b;c=d;", 2)] ∧
    (((Gauge.mk [] []).Add 5 [("a", "b;c=d")]).Set 9
        [("a", "b"), ("c", "d")]).values = [("a=b;c=d;", 9)] := by
  decide

/-- A publish attempt is appended for every producer, error or not. -/
theorem publishTo_attempts (st : RouterState) (p : ProducerSim) (r : Record) :
    (publishTo st p r).attempts = st.attempts ++ [(p.name, r)] := by
  cases hp : p.publishResult r <;> simp [publishTo, hp]

/-- A delivery is appended exactly when the publish succeeded. -/
theorem publishTo_delivered (st : RouterState) (p : ProducerSim) (r : Record) :
    (publishTo st p r).delivered
      = st.delivered
        ++ (if (p.publishResult r).isNone then [(p.name, r)] else []) := by
  cases hp : p.publishResult r <;> simp [publishTo, hp]

/-- One publish step never touches the connection. -/
theorem publishTo_connOpen (st : RouterState) (p : ProducerSim) (r : Record) :
    (publishTo st p r).connOpen = st.connOpen := by
  cases hp : p.publishResult r <;> simp [publishTo, hp]

/-- One publish step never touches the ack channel. -/
theorem publishTo_acks (st : RouterState) (p : ProducerSim) (r : Record) :
    (publishTo st p r).acks = st.acks := by
  cases hp : p.publishResult r <;> simp [publishTo, hp]

/-- One publish step bumps exactly the failing producer's
`(backend, record_type)` error counter. -/
theorem publishTo_errCount (st : RouterState) (p : ProducerSim) (r : Record)
    (k : String × String) :
    mapGetD (publishTo st p r).errCount k 0
      = mapGetD st.errCount k 0
        + (if (p.publishResult r).isSome && ((p.name, r.txType) == k)
            then 1 else 0) := by
  cases hp : p.publishResult r with
  | none => simp [publishTo, hp]
  | some err =>
    by_cases hk : k = (p.name, r.txType)
    · subst hk
      simp [publishTo, hp, mapGetD_mapInsert_self]
    · simp [publishTo, hp, mapGetD_mapInsert_ne _ _ _ _ _ hk, Ne.symm hk]

/-- Dispatch attempts every configured producer once, in order. -/
theorem dispatch_attempts (producers : List ProducerSim) (r : Record)
    (st : RouterState) :
    (dispatch producers r st).attempts
      = st.attempts ++ producers.map (fun p => (p.name, r)) := by
  induction producers generalizing st with
  | nil => simp [dispatch]
  | cons p ps ih =>
    have h1 : dispatch (p :: ps) r st = dispatch ps r (publishTo st p r) := rfl
    rw [h1, ih, publishTo_attempts]
    simp

/-- Dispatch delivers to exactly the producers whose publish succeeded. -/
theorem dispatch_delivered (producers : List ProducerSim) (r : Record)
    (st : RouterState) :
    (dispatch producers r st).delivered
      = st.delivered
        ++ (producers.filter (fun p => (p.publishResult r).isNone)).map
            (fun p => (p.name, r)) := by
  induction producers generalizing st with
  | nil => simp [dispatch]
  | cons p ps ih =>
    have h1 : dispatch (p :: ps) r st = dispatch ps r (publishTo st p r) := rfl
    rw [h1, ih, publishTo_delivered]
    cases hp : p.publishResult r <;> simp [hp, List.filter_cons]

/-- Dispatch leaves the connection as it found it. -/
theorem dispatch_connOpen (producers : List ProducerSim) (r : Record)
    (st : RouterState) :
    (dispatch producers r st).connOpen = st.connOpen := by
  induction producers generalizing st with
  | nil => simp [dispatch]
  | cons p ps ih =>
    have h1 : dispatch (p :: ps) r st = dispatch ps r (publishTo st p r) := rfl
    rw [h1, ih, publishTo_connOpen]

/-- Dispatch never pushes anything onto the ack channel. -/
theorem dispatch_acks (producers : List ProducerSim) (r : Record)
    (st : RouterState) :
    (dispatch producers r st).acks = st.acks := by
  induction producers generalizing st with
  | nil => simp [dispatch]
  | cons p ps ih =>
    have h1 : dispatch (p :: ps) r st = dispatch ps r (publishTo st p r) := rfl
    rw [h1, ih, publishTo_acks]

/-- Dispatch bumps each `(backend, record_type)` error counter by the number
of failing producers under that key. -/
theorem dispatch_errCount (producers : List ProducerSim) (r : Record)
    (st : RouterState) (k : String × String) :
    mapGetD (dispatch producers r st).errCount k 0
      = mapGetD st.errCount k 0 + failCount producers r k := by
  induction producers generalizing st with
  | nil => simp [dispatch, failCount]
  | cons p ps ih =>
    have h1 : dispatch (p :: ps) r st = dispatch ps r (publishTo st p r) := rfl
    have hcons : failCount (p :: ps) r k
        = failCount ps r k
          + (if (p.publishResult r).isSome && ((p.name, r.txType) == k)
              then 1 else 0) := by
      simp [failCount, List.countP_cons]
    rw [h1, ih, publishTo_errCount, hcons]
    omega

/-- C6: for every record and producer list, dispatch attempts every
configured producer exactly once in order with no retry, a publish error
only bumps that backend's `<backend>_err{record_type}` counter while every
remaining producer still receives the record, the connection stays open, no
reliable ack is ever triggered by dispatch (in particular not by a failed
publish), and a subsequent record is again attempted at all producers,
including the one that errored. -/
theorem router_error_isolation (producers : List ProducerSim) (r r2 : Record)
    (st : RouterState) :
    (dispatch producers r st).attempts
      = st.attempts ++ producers.map (fun p => (p.name, r)) ∧
    (dispatch producers r st).delivered
      = st.delivered
        ++ (producers.filter (fun p => (p.publishResult r).isNone)).map
            (fun p => (p.name, r)) ∧
    (∀ k, mapGetD (dispatch producers r st).errCount k 0
      = mapGetD st.errCount k 0 + failCount producers r k) ∧
    (dispatch producers r st).connOpen = st.connOpen ∧
    (dispatch producers r st).acks = st.acks ∧
    (dispatch producers r2 (dispatch producers r st)).attempts
      = st.attempts ++ producers.map (fun p => (p.name, r))
        ++ producers.map (fun p => (p.name, r2)) := by
  refine ⟨dispatch_attempts producers r st, dispatch_delivered producers r st,
    fun k => dispatch_errCount producers r st k,
    dispatch_connOpen producers r st, dispatch_acks producers r st, ?_⟩
  rw [dispatch_attempts, dispatch_attempts]

/-- C5: every connection open manufactures a synthetic `VehicleConnectivity`
record with status `CONNECTED` and every close a matching `DISCONNECTED`
record, carrying the connection's identity as `vin`; the record is routed
through the same dispatch path as vehicle-sourced records (fanning out to
the producers configured for the `connectivity` tag), and the ack path is
never engaged for it: no in-flight entry is created and the ack channel is
untouched. -/
theorem connectivity_synthesis (y cid ni : String) (t : Timestamp)
    (config : String → List ProducerSim) (st : RouterState) (ev : ConnEvent)
    (designated : String → Bool) :
    (mkConnectivityRecord ⟨.opened, y, cid, ni, t⟩).connectivityStatus
      = some .CONNECTED ∧
    (mkConnectivityRecord ⟨.opened, y, cid, ni, t⟩).vin = y ∧
    (mkConnectivityRecord ⟨.closed, y, cid, ni, t⟩).connectivityStatus
      = some .DISCONNECTED ∧
    (mkConnectivityRecord ⟨.closed, y, cid, ni, t⟩).vin = y ∧
    (mkConnectivityRecord ev).txType = "connectivity" ∧
    (mkConnectivityRecord ev).origin = .synthetic ∧
    handleConnEvent config ev st
      = dispatch (config "connectivity") (mkConnectivityRecord ev) st ∧
    (handleConnEvent config ev st).attempts
      = st.attempts
        ++ (config "connectivity").map
            (fun p => (p.name, mkConnectivityRecord ev)) ∧
    inFlightAdds designated (mkConnectivityRecord ev) = [] ∧
    (handleConnEvent config ev st).acks = st.acks := by
  refine ⟨rfl, rfl, rfl, rfl, rfl, rfl, rfl, ?_, ?_, ?_⟩
  · exact dispatch_attempts _ _ _
  · simp [inFlightAdds, mkConnectivityRecord]
  · exact dispatch_acks _ _ _

/-- After an in-place replacement of the occupant of an identity's slot,
lookup finds the replacement. -/
theorem find_replace (reg : Registry) (c : ConnHandle)
    (h : (reg.find? (fun e => e.deviceId == c.deviceId)).isSome) :
    (reg.map (fun e => if e.deviceId == c.deviceId then c else e)).find?
      (fun e => e.deviceId == c.deviceId) = some c := by
  induction reg with
  | nil => simp at h
  | cons e es ih =>
    by_cases he : (e.deviceId == c.deviceId) = true
    · simp [List.find?, he]
    · simp only [List.find?, List.map_cons, if_neg he] at h ⊢
      rw [Bool.not_eq_true] at he
      rw [he] at h ⊢
      exact ih h

/-- Appending to a list in which a predicate finds nothing: the appended
element decides the search. -/
theorem find_append_singleton {α : Type} (l : List α) (p : α → Bool) (c : α)
    (h : l.find? p = none) :
    (l ++ [c]).find? p = if p c then some c else none := by
  induction l with
  | nil =>
    by_cases hc : p c = true <;> simp [List.find?, hc]
  | cons e es ih =>
    by_cases he : p e = true
    · simp [List.find?, he] at h
    · simp only [List.find?] at h ⊢
      rw [Bool.not_eq_true] at he
      rw [he] at h ⊢
      exact ih h

/-- An in-place replacement keyed on an identity never changes the key
sequence of the table. -/
theorem register_keys (reg : Registry) (c : ConnHandle) :
    (reg.map (fun e => if e.deviceId == c.deviceId then c else e)).map
      (fun e => e.deviceId) = reg.map (fun e => e.deviceId) := by
  induction reg with
  | nil => rfl
  | cons e es ih =>
    by_cases he : (e.deviceId == c.deviceId) = true
    · simp only [List.map_cons, if_pos he, ih, List.cons.injEq]
      exact ⟨(eq_of_beq he).symm, trivial⟩
    · simp only [List.map_cons, if_neg he, ih]

/-- `register` returns exactly the prior occupant of the identity's slot. -/
theorem register_displaced (reg : Registry) (c : ConnHandle) :
    (reg.register c).2 = reg.lookup c.deviceId := by
  unfold Registry.register Registry.lookup
  cases hfind : reg.find? (fun e => e.deviceId == c.deviceId) <;> simp [hfind]

/-- After `register`, lookup of the identity returns the new connection. -/
theorem register_lookup (reg : Registry) (c : ConnHandle) :
    ((reg.register c).1).lookup c.deviceId = some c := by
  unfold Registry.register Registry.lookup
  cases hfind : reg.find? (fun e => e.deviceId == c.deviceId) with
  | some old =>
    simp only []
    exact find_replace reg c (by rw [hfind]; rfl)
  | none =>
    simp only []
    rw [find_append_singleton _ _ _ hfind]
    simp

/-- `register` preserves the at-most-one-entry-per-identity invariant. -/
theorem register_wellKeyed (reg : Registry) (c : ConnHandle)
    (hw : reg.WellKeyed) : ((reg.register c).1).WellKeyed := by
  unfold Registry.register
  cases hfind : reg.find? (fun e => e.deviceId == c.deviceId) with
  | some old =>
    simp only []
    unfold Registry.WellKeyed
    rw [register_keys]
    exact hw
  | none =>
    simp only []
    unfold Registry.WellKeyed
    rw [List.map_append, List.nodup_append]
    refine ⟨hw, List.nodup_singleton _, ?_⟩
    intro a ha hb
    simp only [List.map_cons, List.map_nil, List.mem_singleton] at hb
    subst hb
    obtain ⟨e, he, hde⟩ := List.mem_map.mp ha
    have hnone := List.find?_eq_none.mp hfind e he
    exact hnone (by rw [hde]; exact beq_self_eq_true _)

/-- `unregister` preserves the at-most-one-entry-per-identity invariant. -/
theorem unregister_wellKeyed (reg : Registry) (c : ConnHandle)
    (hw : reg.WellKeyed) : (reg.unregister c).WellKeyed := by
  unfold Registry.unregister Registry.WellKeyed at *
  exact List.Nodup.sublist
    ((List.filter_sublist reg).map (fun e => e.deviceId)) hw

/-- C7: the registry holds at most one live connection per identity:
`register` on an occupied slot atomically replaces the entry and returns the
prior connection, on a free slot it displaces nothing, lookup after a
registration returns the new connection, the keying invariant is preserved
by `register` and `unregister`, and any two entries sharing an identity are
the same entry. -/
theorem registry_at_most_one_live (reg : Registry) (c : ConnHandle)
    (hw : reg.WellKeyed) :
    (reg.register c).2 = reg.lookup c.deviceId ∧
    ((reg.register c).1).lookup c.deviceId = some c ∧
    ((reg.register c).1).WellKeyed ∧
    (∀ c2, (reg.unregister c2).WellKeyed) ∧
    (∀ a b, a ∈ (reg.register c).1 → b ∈ (reg.register c).1 →
      a.deviceId = b.deviceId → a = b) := by
  refine ⟨register_displaced reg c, register_lookup reg c,
    register_wellKeyed reg c hw, fun c2 => unregister_wellKeyed reg c2 hw, ?_⟩
  intro a b ha hb hab
  exact List.inj_on_of_nodup_map (register_wellKeyed reg c hw) ha hb hab

/-- Witness for C7: replacing the only live connection of identity `X`. -/
theorem registry_at_most_one_live_witness :
    Registry.WellKeyed [⟨"X", 1⟩] ∧
    (Registry.register [⟨"X", 1⟩] ⟨"X", 2⟩).2
      = Registry.lookup [⟨"X", 1⟩] "X" ∧
    (Registry.register [⟨"X", 1⟩] ⟨"X", 2⟩).1.lookup "X"
      = some ⟨"X", 2⟩ := by
  have h := registry_at_most_one_live [⟨"X", 1⟩] ⟨"X", 2⟩
    (by unfold Registry.WellKeyed; decide)
  exact ⟨by unfold Registry.WellKeyed; decide, h.1, h.2.1⟩

/-- One coordinator step preserves the single-record invariant. -/
theorem ackInv_step (txid : Nat) (ty : String) (ttl : Nat)
    (st : AckCoordState) (ev : AckCoordEvent) (hInv : ackInv txid ty ttl st) :
    ackInv txid ty ttl (ackCoordStep st ev) := by
  cases ev with
  | ackArrive id2 txid2 ty2 desig =>
    rcases hInv with ⟨e, hentry, hid, hty, hr1, hr2, hq, hx⟩ |
      ⟨hentry, hq, hx⟩ | ⟨hentry, hq, hx⟩
    · simp only [ackCoordStep, hentry]
      by_cases hm : e.txid = txid2 ∧ e.txType = ty2
      · rw [if_pos hm]
        by_cases hd : desig = true
        · rw [if_pos hd]
          have hi : txid2 = txid := hm.1.symm.trans hid
          have hh : ty2 = ty := hm.2.symm.trans hty
          subst hi
          subst hh
          exact Or.inr (Or.inl ⟨rfl, by rw [hq]; rfl, hx⟩)
        · rw [if_neg hd]
          exact Or.inl ⟨e, hentry, hid, hty, hr1, hr2, hq, hx⟩
      · rw [if_neg hm]
        exact Or.inl ⟨e, rfl, hid, hty, hr1, hr2, hq, hx⟩
    · simp only [ackCoordStep, hentry]
      exact Or.inr (Or.inl ⟨rfl, hq, hx⟩)
    · simp only [ackCoordStep, hentry]
      exact Or.inr (Or.inr ⟨rfl, hq, hx⟩)
  | tick =>
    rcases hInv with ⟨e, hentry, hid, hty, hr1, hr2, hq, hx⟩ |
      ⟨hentry, hq, hx⟩ | ⟨hentry, hq, hx⟩
    · simp only [ackCoordStep, hentry]
      by_cases hr : e.remaining ≤ 1
      · rw [if_pos hr]
        exact Or.inr (Or.inr ⟨rfl, hq, by rw [hx]⟩)
      · rw [if_neg hr]
        refine Or.inl ⟨{ e with remaining := e.remaining - 1 }, rfl, hid, hty,
          ?_, ?_, hq, hx⟩
        · show 1 ≤ e.remaining - 1
          omega
        · show e.remaining - 1 ≤ ttl
          omega
    · simp only [ackCoordStep, hentry]
      exact Or.inr (Or.inl ⟨hentry, hq, hx⟩)
    · simp only [ackCoordStep, hentry]
      exact Or.inr (Or.inr ⟨hentry, hq, hx⟩)

/-- The invariant holds along any run. -/
theorem ackInv_run (txid : Nat) (ty : String) (ttl : Nat)
    (st : AckCoordState) (evs : List AckCoordEvent)
    (hInv : ackInv txid ty ttl st) :
    ackInv txid ty ttl (ackCoordRun st evs) := by
  induction evs generalizing st with
  | nil => exact hInv
  | cons ev rest ih => exact ih _ (ackInv_step txid ty ttl st ev hInv)

/-- A resolved entry stays resolved across any step. -/
theorem ack_entry_none_step (st : AckCoordState) (ev : AckCoordEvent)
    (h : st.entry = none) : (ackCoordStep st ev).entry = none := by
  cases ev with
  | ackArrive id2 txid2 ty2 desig => simp [ackCoordStep, h]
  | tick => simp [ackCoordStep, h]

/-- With the invariant and at least as many ticks as the remaining TTL, the
run resolves the in-flight entry. -/
theorem ack_run_resolves (evs : List AckCoordEvent) (txid : Nat) (ty : String)
    (ttl : Nat) (st : AckCoordState) (hInv : ackInv txid ty ttl st)
    (hT : ∀ e, st.entry = some e → e.remaining ≤ countTicks evs) :
    (ackCoordRun st evs).entry = none := by
  induction evs generalizing st with
  | nil =>
    cases hentry : st.entry with
    | none => exact hentry
    | some e =>
      have hle := hT e hentry
      simp only [countTicks, List.filter_nil, List.length_nil] at hle
      rcases hInv with ⟨e2, he2, _, _, hr1, _, _, _⟩ |
        ⟨hn, _, _⟩ | ⟨hn, _, _⟩
      · rw [hentry] at he2
        injection he2 with he3
        subst he3
        omega
      · rw [hn] at hentry
        exact absurd hentry (by simp)
      · rw [hn] at hentry
        exact absurd hentry (by simp)
  | cons ev rest ih =>
    have hInv2 := ackInv_step txid ty ttl st ev hInv
    show (ackCoordRun (ackCoordStep st ev) rest).entry = none
    apply ih (ackCoordStep st ev) hInv2
    intro e2 he2
    cases hentry : st.entry with
    | none =>
      rw [ack_entry_none_step st ev hentry] at he2
      exact absurd he2 (by simp)
    | some e =>
      have hle := hT e hentry
      cases ev with
      | ackArrive id2 txid2 ty2 desig =>
        have hct : countTicks (AckCoordEvent.ackArrive id2 txid2 ty2 desig
            :: rest) = countTicks rest := by
          simp [countTicks]
        rw [hct] at hle
        simp only [ackCoordStep, hentry] at he2
        by_cases hm : e.txid = txid2 ∧ e.txType = ty2
        · rw [if_pos hm] at he2
          by_cases hd : desig = true
          · rw [if_pos hd] at he2
            simp at he2
          · rw [if_neg hd] at he2
            rw [hentry] at he2
            injection he2 with he3
            rw [← he3]
            exact hle
        · rw [if_neg hm] at he2
          injection he2 with he3
          rw [← he3]
          exact hle
      | tick =>
        have hct : countTicks (AckCoordEvent.tick :: rest)
            = countTicks rest + 1 := by
          simp [countTicks]
        rw [hct] at hle
        simp only [ackCoordStep, hentry] at he2
        by_cases hr : e.remaining ≤ 1
        · rw [if_pos hr] at he2
          simp at he2
        · rw [if_neg hr] at he2
          simp only [Option.some.injEq] at he2
          rw [← he2]
          show e.remaining - 1 ≤ countTicks rest
          omega

/-- C3: for a record whose type tag has a designated ack source, once its
in-flight entry is created, any complete run (one containing at least the
TTL's worth of ticks) ends in exactly one of two outcomes — the matching ack
frame alone is enqueued on the originating connection with no expiry
counted, or the entry expires with the expiry counter at one and nothing
enqueued — and at no prefix of the run are an enqueued ack and a counted
expiry ever both present. -/
theorem ack_exactly_one_outcome (txid : Nat) (ty : String) (ttl : Nat)
    (evs : List AckCoordEvent) (h1 : 1 ≤ ttl) (h2 : ttl ≤ countTicks evs) :
    (((ackCoordRun (initAckState txid ty ttl) evs).outboundAckQueue
        = [⟨txid, ty⟩] ∧
      (ackCoordRun (initAckState txid ty ttl) evs).expiredCount = 0) ∨
     ((ackCoordRun (initAckState txid ty ttl) evs).outboundAckQueue = [] ∧
      (ackCoordRun (initAckState txid ty ttl) evs).expiredCount = 1)) ∧
    (∀ pre suf, evs = pre ++ suf →
      ¬((ackCoordRun (initAckState txid ty ttl) pre).outboundAckQueue ≠ [] ∧
        1 ≤ (ackCoordRun (initAckState txid ty ttl) pre).expiredCount)) := by
  have hInv0 : ackInv txid ty ttl (initAckState txid ty ttl) :=
    Or.inl ⟨⟨txid, ty, ttl⟩, rfl, rfl, rfl, h1, le_refl ttl, rfl, rfl⟩
  constructor
  · have hnone : (ackCoordRun (initAckState txid ty ttl) evs).entry = none := by
      apply ack_run_resolves evs txid ty ttl _ hInv0
      intro e he
      simp only [initAckState, Option.some.injEq] at he
      rw [← he]
      exact h2
    rcases ackInv_run txid ty ttl _ evs hInv0 with ⟨e, he, _⟩ |
      ⟨_, hq, hx⟩ | ⟨_, hq, hx⟩
    · rw [hnone] at he
      exact absurd he (by simp)
    · exact Or.inl ⟨hq, hx⟩
    · exact Or.inr ⟨hq, by rw [hx]⟩
  · intro pre suf _ hcontra
    rcases ackInv_run txid ty ttl _ pre hInv0 with ⟨e, _, _, _, _, _, hq, _⟩ |
      ⟨_, hq, hx⟩ | ⟨_, hq, _⟩
    · exact hcontra.1 hq
    · rw [hx] at hcontra
      omega
    · exact hcontra.1 hq

/-- Witness for C3: TTL one, a run of a single tick; the entry expires. -/
theorem ack_exactly_one_outcome_witness :
    1 ≤ 1 ∧ 1 ≤ countTicks [AckCoordEvent.tick] ∧
    (((ackCoordRun (initAckState 7 "V" 1)
        [AckCoordEvent.tick]).outboundAckQueue = [⟨7, "V"⟩] ∧
      (ackCoordRun (initAckState 7 "V" 1)
        [AckCoordEvent.tick]).expiredCount = 0) ∨
     ((ackCoordRun (initAckState 7 "V" 1)
        [AckCoordEvent.tick]).outboundAckQueue = [] ∧
      (ackCoordRun (initAckState 7 "V" 1)
        [AckCoordEvent.tick]).expiredCount = 1)) := by
  refine ⟨le_refl 1, by decide, ?_⟩
  exact (ack_exactly_one_outcome 7 "V" 1 [AckCoordEvent.tick]
    (le_refl 1) (by decide)).1

/-- C10: `Gauge.Inc` changes the state exactly as `Gauge.Add 1`;
`Gauge.Add n` followed by `Gauge.Sub n` on the same labels restores the
stored value at that key; `Gauge.Set n` makes the stored value at the key
`n` regardless of the prior state, and the last `Set` wins (hence `Set` is
idempotent). -/
theorem gauge_add_sub_inc_set_algebra (g : Gauge) (n m : Int) (L : Labels) :
    Gauge.Inc g L = Gauge.Add g 1 L ∧
    mapGetD ((g.Add n L).Sub n L).values (labelsKey L) 0
      = mapGetD g.values (labelsKey L) 0 ∧
    mapGetD (g.Set n L).values (labelsKey L) 0 = n ∧
    (g.Set m L).Set n L = g.Set n L := by
  refine ⟨rfl, ?_, ?_, ?_⟩
  · simp [Gauge.Add, Gauge.Sub, mapGetD_mapInsert_self]
  · simp [Gauge.Set, mapGetD_mapInsert_self]
  · simp [Gauge.Set, mapInsert_mapInsert]

example : natsSubject "tesla" "TEST123" "V" = "tesla.TEST123.data" := by decide
example : natsSubject "tesla" "TEST123" "alerts" = "tesla.TEST123.alerts" := by decide
example : labelsKey [("a", "b")] = "a=b;" := by decide
example : processReliableAck ["V"] ⟨1, "V", "TEST123", .raw [], .vehicle⟩ []
    = [⟨"TEST123", 1, "V"⟩] := by decide
example : processReliableAck [] ⟨1, "alerts", "TEST123", .raw [], .vehicle⟩ [] = [] := by decide
example :
    (dispatch [⟨"A", fun _ => none⟩, ⟨"B", fun _ => some "err"⟩]
      ⟨1, "alerts", "X", .raw [], .vehicle⟩
      ⟨true, [], [], [], []⟩).delivered
      = [("A", ⟨1, "alerts", "X", .raw [], .vehicle⟩)] := rfl
example :
    mapGetD (dispatch [⟨"A", fun _ => none⟩, ⟨"B", fun _ => some "err"⟩]
      ⟨1, "alerts", "X", .raw [], .vehicle⟩
      ⟨true, [], [], [], []⟩).errCount ("B", "alerts") 0 = 1 := rfl
example : ackCoordRun (initAckState 1 "V" 3) [.ackArrive "X" 1 "V" true]
    = ⟨none, [⟨1, "V"⟩], 0, 0⟩ := by decide
example : ackCoordRun (initAckState 1 "V" 2) [.tick, .tick] = ⟨none, [], 1, 0⟩ := by decide
example : ackCoordRun (initAckState 1 "V" 2)
    [.tick, .ackArrive "X" 1 "V" false, .ackArrive "X" 1 "V" true, .tick]
    = ⟨none, [⟨1, "V"⟩], 0, 0⟩ := by decide
example : Registry.register [ConnHandle.mk "X" 1] ⟨"X", 2⟩
    = ([⟨"X", 2⟩], some ⟨"X", 1⟩) := by decide
example : Registry.register [ConnHandle.mk "X" 1] ⟨"Y", 2⟩
    = ([⟨"X", 1⟩, ⟨"Y", 2⟩], none) := by decide
example : Registry.unregister [ConnHandle.mk "X" 1, ⟨"Y", 2⟩] ⟨"X", 1⟩ = [⟨"Y", 2⟩] := by decide

end FleetTelemetry
